import Mathlib

/-!
Verification of the SOC dashboard module registry and lifecycle manager
(`backend/core/module_loader.py`, `backend/core/base_module.py`,
`backend/api/health.py`, and the VirusTotal / Shodan module implementations).

Python dictionaries are embedded as association lists with insertion-order
semantics: assignment `d[k] = v` replaces the value in place when the key is
present and appends otherwise; `del d[k]` removes the entry; `d.get(k)` is a
lookup.  A Python dict always has pairwise-distinct keys, which theorems take
as a `Nodup` hypothesis on the key list where it matters.

Effects are made explicit: `initialize()` and `health_check()` of a module
are network-dependent, so a module instance at the registry level carries its
observable behaviour (`InitRes`, `HealthBehavior`), and the concrete modules
take the network response as an explicit argument.  Code that catches
exceptions is embedded by matching on the exceptional outcome.
-/

/-- Lookup in a Python-style dict (first matching key). Embeds `d.get(k)` /
`d[k]`. -/
def dictLookup (k : String) : List (String × α) → Option α
  | [] => none
  | (k2, v) :: rest => if k2 = k then some v else dictLookup k rest

/-- Python dict assignment `d[k] = v`: replace in place when present,
append otherwise. -/
def dictInsert (k : String) (v : α) : List (String × α) → List (String × α)
  | [] => [(k, v)]
  | (k2, v2) :: rest =>
    if k2 = k then (k2, v) :: rest else (k2, v2) :: dictInsert k v rest

/-- Python `del d[k]`: remove the (first) entry with key `k`. -/
def dictErase (k : String) : List (String × α) → List (String × α)
  | [] => []
  | (k2, v2) :: rest => if k2 = k then rest else (k2, v2) :: dictErase k rest

theorem dictLookup_insert_self (k : String) (v : α) (d : List (String × α)) :
    dictLookup k (dictInsert k v d) = some v := by
  induction d with
  | nil => simp [dictInsert, dictLookup]
  | cons p rest ih =>
    obtain ⟨k2, v2⟩ := p
    by_cases h : k2 = k <;> simp [dictInsert, dictLookup, h, ih]

theorem dictLookup_insert_ne (k2 k : String) (h : k2 ≠ k) (v : α)
    (d : List (String × α)) :
    dictLookup k (dictInsert k2 v d) = dictLookup k d := by
  induction d with
  | nil => simp [dictInsert, dictLookup, h]
  | cons p rest ih =>
    obtain ⟨k3, v3⟩ := p
    simp only [dictInsert]
    by_cases h3 : k3 = k2
    · subst h3
      simp [dictLookup, h]
    · simp only [if_neg h3, dictLookup]
      by_cases h4 : k3 = k
      · simp [h4]
      · simp [h4, ih]

theorem dictInsert_of_absent (k : String) (d : List (String × α))
    (h : dictLookup k d = none) (v : α) :
    dictInsert k v d = d ++ [(k, v)] := by
  induction d with
  | nil => simp [dictInsert]
  | cons p rest ih =>
    obtain ⟨k2, v2⟩ := p
    by_cases h2 : k2 = k
    · simp [dictLookup, h2] at h
    · simp only [dictLookup, if_neg h2] at h
      simp [dictInsert, h2, ih h]

theorem dictLookup_none_of_not_mem (k : String) (d : List (String × α))
    (h : k ∉ d.map Prod.fst) : dictLookup k d = none := by
  induction d with
  | nil => rfl
  | cons p rest ih =>
    obtain ⟨k2, v2⟩ := p
    simp only [List.map_cons, List.mem_cons, not_or] at h
    simp only [dictLookup]
    rw [if_neg (fun hk => h.1 hk.symm)]
    exact ih h.2

theorem dictLookup_erase_self (k : String) (d : List (String × α))
    (hnd : (d.map Prod.fst).Nodup) : dictLookup k (dictErase k d) = none := by
  induction d with
  | nil => rfl
  | cons p rest ih =>
    obtain ⟨k2, v2⟩ := p
    simp only [List.map_cons, List.nodup_cons] at hnd
    by_cases h2 : k2 = k
    · subst h2
      simp only [dictErase, if_pos rfl]
      exact dictLookup_none_of_not_mem k2 rest hnd.1
    · simp only [dictErase, if_neg h2, dictLookup, if_neg h2]
      exact ih hnd.2

/-! ## Data model shared with `base_module.py` -/

/-- `ModuleStatus` enumeration from `base_module.py`. -/
inductive ModuleStatus
  | active
  | inactive
  | error
  | initializing
deriving DecidableEq, Repr

/-- A configuration value (Python config dicts hold strings, ints and
booleans in this codebase). -/
inductive ConfigVal
  | str (s : String)
  | nat (n : Nat)
  | bool (b : Bool)
deriving DecidableEq, Repr

/-- Python truthiness test `not value` for the config values that occur. -/
def ConfigVal.falsy : ConfigVal → Bool
  | .str s => s == ""
  | .nat n => n == 0
  | .bool b => !b

/-- An opaque module configuration: a key/value dict. -/
abbrev Config := List (String × ConfigVal)

/-! ## Registry-level view of a module instance

At the registry level only the observable behaviour of an instance matters:
what its `initialize()` call would do (return a boolean or raise) and what its
`health_check()` call would do (return a dict or raise). -/

/-- Outcome of calling `initialize()` on an instance: a returned boolean or a
raised exception (carrying its description). -/
inductive InitRes
  | ok (b : Bool)
  | exn (msg : String)
deriving DecidableEq, Repr

/-- Outcome of calling `health_check()` on an instance: a returned dict or a
raised exception (carrying its description). -/
inductive HealthBehavior
  | ok (d : List (String × String))
  | exn (msg : String)
deriving DecidableEq, Repr

/-- A constructed module instance as the registry sees it: the configuration
it was built with plus its lifecycle behaviour. -/
structure ModInstance where
  cfg : Config
  initRes : InitRes
  health : HealthBehavior
deriving DecidableEq, Repr

/-- A resolved module class: constructing an instance from a configuration
may succeed or throw (`module_class(config=config)`). -/
abbrev ModuleClass := Option Config → Except String ModInstance

/-- The import/resolution environment: `importlib.import_module` +
`getattr` on the naming convention either yields a class or fails. -/
abbrev Env := String → Option ModuleClass

/-- State of `ModuleLoader`: the `loaded_modules` and `available_modules`
dicts. -/
structure ModuleLoader where
  loaded : List (String × ModInstance)
  available : List (String × ModuleClass)

/-- `ModuleLoader.load_module`: resolve the class for `module_name`; on
resolution failure or a constructor exception, log and return `None` with
the state unchanged; on success record the class in `available_modules` and
return the instance. -/
def load_module (env : Env) (st : ModuleLoader) (module_name : String)
    (config : Option Config) : Option ModInstance × ModuleLoader :=
  match env module_name with
  | none => (none, st)
  | some module_class =>
    match module_class config with
    | Except.error _ => (none, st)
    | Except.ok inst =>
      (some inst, { st with available := dictInsert module_name module_class st.available })

/-- `ModuleLoader.initialize_module`: call the instance's `initialize()`;
on `True` insert it into `loaded_modules` and return `True`; on `False`
return `False`; an exception is caught and returns `False`. -/
def init_module (st : ModuleLoader) (module_name : String) (m : ModInstance) :
    Bool × ModuleLoader :=
  match m.initRes with
  | .exn _ => (false, st)
  | .ok success =>
    if success then (true, { st with loaded := dictInsert module_name m st.loaded })
    else (false, st)

/-- `ModuleLoader.get_module`: lookup in `loaded_modules`. -/
def get_module (st : ModuleLoader) (module_name : String) : Option ModInstance :=
  dictLookup module_name st.loaded

/-- `ModuleLoader.get_all_modules`: `self.loaded_modules.copy()` — in the
functional embedding the value of the loaded dict. (The aliasing content of
`.copy()` is modelled separately in `HeapModel`.) -/
def get_all_modules (st : ModuleLoader) : List (String × ModInstance) :=
  st.loaded

/-- One iteration of the `load_all_modules` loop body for `module_name`. -/
def load_all_step (env : Env) (configs : List (String × Config))
    (st : ModuleLoader) (results : List (String × Bool)) (module_name : String) :
    List (String × Bool) × ModuleLoader :=
  let config := some ((dictLookup module_name configs).getD [])
  match load_module env st module_name config with
  | (some m, st1) =>
    let r := init_module st1 module_name m
    (dictInsert module_name r.1 results, r.2)
  | (none, st1) => (dictInsert module_name false results, st1)

/-- The `for module_name in discovered` loop of `load_all_modules`. -/
def load_all_aux (env : Env) (configs : List (String × Config)) :
    ModuleLoader → List (String × Bool) → List String →
    List (String × Bool) × ModuleLoader
  | st, results, [] => (results, st)
  | st, results, module_name :: rest =>
    let r := load_all_step env configs st results module_name
    load_all_aux env configs r.2 r.1 rest

/-- `ModuleLoader.load_all_modules`: run discovery (whose filesystem result
is the `discovered` parameter), then load and initialise every discovered
name, collecting a per-name boolean result dict. -/
def load_all_modules (env : Env) (discovered : List String)
    (configs : List (String × Config)) (st : ModuleLoader) :
    List (String × Bool) × ModuleLoader :=
  load_all_aux env configs st [] discovered

/-- `ModuleLoader.reload_module`: delete the name from `loaded_modules` when
present, then `load_module` and, if that produced an instance,
`initialize_module`. -/
def reload_module (env : Env) (st : ModuleLoader) (module_name : String)
    (config : Option Config) : Bool × ModuleLoader :=
  let st1 := if (dictLookup module_name st.loaded).isSome then
    { st with loaded := dictErase module_name st.loaded } else st
  match load_module env st1 module_name config with
  | (some m, st2) => init_module st2 module_name m
  | (none, st2) => (false, st2)

/-- `ModuleLoader.unload_module`: delete the name from `loaded_modules` when
present and report whether a removal happened. -/
def unload_module (st : ModuleLoader) (module_name : String) :
    Bool × ModuleLoader :=
  if (dictLookup module_name st.loaded).isSome then
    (true, { st with loaded := dictErase module_name st.loaded })
  else (false, st)

/-- The composite the spec calls `load` followed by
`initialize_and_register`, written from the spec for the refinement claim
about `reload` on an absent name. -/
def load_then_init (env : Env) (st : ModuleLoader) (module_name : String)
    (config : Option Config) : Bool × ModuleLoader :=
  match load_module env st module_name config with
  | (some m, st1) => init_module st1 module_name m
  | (none, st1) => (false, st1)

/-! ## The `/health` endpoint (`backend/api/health.py`) -/

/-- The `for name, module in modules.items()` loop of the health endpoint:
each module's `health_check()` result is stored under its name; an exception
is caught and converted into a `status: error` entry with the description. -/
def health_aux : List (String × ModInstance) →
    List (String × List (String × String)) →
    List (String × List (String × String))
  | [], acc => acc
  | (name, m) :: rest, acc =>
    match m.health with
    | .ok h => health_aux rest (dictInsert name h acc)
    | .exn e => health_aux rest (dictInsert name [("status", "error"), ("error", e)] acc)

/-- The JSON body returned by the `/health` route. -/
structure HealthResponse where
  status : String
  modules_loaded : Nat
  modules : List (String × List (String × String))
deriving DecidableEq, Repr

/-- The `/health` route handler: aggregate `health_check()` over
`get_all_modules()`, isolating per-module faults. -/
def health_check (st : ModuleLoader) : HealthResponse :=
  let modules := get_all_modules st
  { status := "healthy"
    modules_loaded := modules.length
    modules := health_aux modules [] }

/-! ## The module contract and the concrete integrations

`BaseModule.__init__` and the `initialize()` implementations of the
VirusTotal and Shodan modules (`backend/modules/virustotal/module.py`,
`backend/modules/shodan/module.py`).  The network response observed by
`health_check()` is the explicit `NetOutcome` argument. -/

/-- State installed by `BaseModule.__init__`: the config dict
(`config or {}`), the status enum and the `_initialized` flag. -/
structure BaseModule where
  config : Config
  status : ModuleStatus
  inited : Bool
deriving DecidableEq, Repr

/-- `BaseModule.__init__(config)`. -/
def BaseModule.new (config : Option Config) : BaseModule :=
  { config := config.getD []
    status := ModuleStatus.initializing
    inited := false }

/-- `BaseModule.is_initialized()`. -/
def BaseModule.is_inited (m : BaseModule) : Bool :=
  m.inited

/-- `BaseModule.get_status()`. -/
def BaseModule.get_status (m : BaseModule) : ModuleStatus :=
  m.status

/-- `BaseModule.get_config_value(key, default)`. -/
def BaseModule.get_config_value (m : BaseModule) (key : String)
    (default : ConfigVal) : ConfigVal :=
  (dictLookup key m.config).getD default

/-- The outcome of the outbound HTTP probe made by a module's
`health_check()`: a response status code, or a raised exception. -/
inductive NetOutcome
  | status (code : Nat)
  | exn (msg : String)
deriving DecidableEq, Repr

/-- `VirustotalModule` instance state (`__init__` adds `api_key`,
`base_url`, `timeout` on top of `BaseModule`). -/
structure VirustotalModule extends BaseModule where
  api_key : ConfigVal
  base_url : String
  timeout : ConfigVal
deriving Repr

/-- `VirustotalModule.__init__(config)`. -/
def VirustotalModule.new (config : Option Config) : VirustotalModule :=
  { toBaseModule := BaseModule.new config
    api_key := ConfigVal.str ""
    base_url := "https://www.virustotal.com/api/v3"
    timeout := ConfigVal.nat 30 }

/-- `VirustotalModule.health_check()`: a 200 response is healthy, any other
code unhealthy, and a transport exception is caught and reported as a
`status: error` dict. -/
def VirustotalModule.health_probe (_m : VirustotalModule) (net : NetOutcome) :
    List (String × String) :=
  match net with
  | .status 200 => [("status", "healthy"), ("message", "Connected to VirusTotal")]
  | .status c => [("status", "unhealthy"), ("message", "Status code " ++ toString c)]
  | .exn msg => [("status", "error"), ("message", msg)]

/-- `VirustotalModule.initialize()`: read `api_key`/`timeout` from config;
an empty key is an immediate failure with status Error; otherwise run the
health probe and go Active on healthy, Error otherwise. -/
def VirustotalModule.init_run (m : VirustotalModule) (net : NetOutcome) :
    Bool × VirustotalModule :=
  let m1 := { m with
    api_key := BaseModule.get_config_value m.toBaseModule "api_key" (ConfigVal.str "")
    timeout := BaseModule.get_config_value m.toBaseModule "timeout" (ConfigVal.nat 30) }
  if ConfigVal.falsy m1.api_key then
    (false, { m1 with status := ModuleStatus.error })
  else
    let health := VirustotalModule.health_probe m1 net
    if dictLookup "status" health = some "healthy" then
      (true, { m1 with status := ModuleStatus.active, inited := true })
    else
      (false, { m1 with status := ModuleStatus.error })

/-- `ShodanModule` instance state. -/
structure ShodanModule extends BaseModule where
  api_key : ConfigVal
  base_url : String
  timeout : ConfigVal
deriving Repr

/-- `ShodanModule.__init__(config)`. -/
def ShodanModule.new (config : Option Config) : ShodanModule :=
  { toBaseModule := BaseModule.new config
    api_key := ConfigVal.str ""
    base_url := "https://api.shodan.io"
    timeout := ConfigVal.nat 30 }

/-- `ShodanModule.health_check()`. -/
def ShodanModule.health_probe (_m : ShodanModule) (net : NetOutcome) :
    List (String × String) :=
  match net with
  | .status 200 => [("status", "healthy"), ("message", "Connected to Shodan")]
  | .status c => [("status", "unhealthy"), ("message", "Status code " ++ toString c)]
  | .exn msg => [("status", "error"), ("message", msg)]

/-- `ShodanModule.initialize()`. -/
def ShodanModule.init_run (m : ShodanModule) (net : NetOutcome) :
    Bool × ShodanModule :=
  let m1 := { m with
    api_key := BaseModule.get_config_value m.toBaseModule "api_key" (ConfigVal.str "")
    timeout := BaseModule.get_config_value m.toBaseModule "timeout" (ConfigVal.nat 30) }
  if ConfigVal.falsy m1.api_key then
    (false, { m1 with status := ModuleStatus.error })
  else
    let health := ShodanModule.health_probe m1 net
    if dictLookup "status" health = some "healthy" then
      (true, { m1 with status := ModuleStatus.active, inited := true })
    else
      (false, { m1 with status := ModuleStatus.error })

/-! ## Heap model for `get_all_modules`'s `.copy()`

The claim that `get_all_modules()` returns an independent copy is a
statement about aliasing, so the dicts live in an explicit heap: the
registry's `loaded_modules` dict sits at address `loadedRef`, and
`get_all_modules` allocates a fresh cell holding a copy of its contents.
A caller mutating the returned dict overwrites that fresh cell. -/

namespace HeapModel

/-- Read a heap cell by address. -/
def heapGet : List α → Nat → Option α
  | [], _ => none
  | d :: _, 0 => some d
  | _ :: rest, n + 1 => heapGet rest n

/-- Overwrite a heap cell by address. -/
def heapSet : List α → Nat → α → List α
  | [], _, _ => []
  | _ :: rest, 0, v => v :: rest
  | d :: rest, n + 1, v => d :: heapSet rest n v

theorem heapGet_append_left (l l2 : List α) (i : Nat) (h : i < l.length) :
    heapGet (l ++ l2) i = heapGet l i := by
  induction l generalizing i with
  | nil => simp at h
  | cons x rest ih =>
    cases i with
    | zero => rfl
    | succ j =>
      simp only [List.cons_append, heapGet]
      exact ih j (by simpa using Nat.lt_of_succ_lt_succ h)

theorem heapGet_append_self (l : List α) (x : α) :
    heapGet (l ++ [x]) l.length = some x := by
  induction l with
  | nil => rfl
  | cons y rest ih => simpa [heapGet] using ih

theorem heapGet_set_ne (l : List α) (i j : Nat) (v : α) (h : i ≠ j) :
    heapGet (heapSet l j v) i = heapGet l i := by
  induction l generalizing i j with
  | nil => rfl
  | cons x rest ih =>
    cases j with
    | zero =>
      cases i with
      | zero => exact absurd rfl h
      | succ i2 => rfl
    | succ j2 =>
      cases i with
      | zero => rfl
      | succ i2 =>
        simp only [heapSet, heapGet]
        exact ih i2 j2 (fun he => h (by simp [he]))

theorem heapSet_length (l : List α) (j : Nat) (v : α) :
    (heapSet l j v).length = l.length := by
  induction l generalizing j with
  | nil => rfl
  | cons x rest ih =>
    cases j with
    | zero => rfl
    | succ j2 => simp [heapSet, ih]

/-- The loader as seen through the heap: all allocated dicts plus the
address of `loaded_modules`. -/
structure HeapLoader where
  heap : List (List (String × ModInstance))
  loadedRef : Nat

/-- Dereference an address (dict contents at that cell). -/
def HeapLoader.readRef (s : HeapLoader) (r : Nat) : List (String × ModInstance) :=
  (heapGet s.heap r).getD []

/-- `get_all_modules()` in the heap model: `self.loaded_modules.copy()`
allocates a fresh cell with the same contents and returns its address. -/
def get_all_modules_h (s : HeapLoader) : Nat × HeapLoader :=
  (s.heap.length, { s with heap := s.heap ++ [s.readRef s.loadedRef] })

/-- A caller mutating a dict it holds a reference to: overwrite the cell
with arbitrary new contents (covers adding and removing entries). -/
def mutateRef (s : HeapLoader) (r : Nat) (d : List (String × ModInstance)) :
    HeapLoader :=
  { s with heap := heapSet s.heap r d }

/-- `get_module(name)` in the heap model: lookup through `loadedRef`. -/
def get_module_h (s : HeapLoader) (module_name : String) : Option ModInstance :=
  dictLookup module_name (s.readRef s.loadedRef)

end HeapModel

/-! ## Concrete sample data (used to exercise the theorems) -/

/-- A sample instance whose `initialize()` returns `True`. -/
def egInstance : ModInstance :=
  { cfg := []
    initRes := InitRes.ok true
    health := HealthBehavior.ok [("status", "healthy"), ("message", "ok")] }

/-- A sample instance whose `initialize()` returns `False` and whose
`health_check()` raises. -/
def egInstanceBad : ModInstance :=
  { cfg := []
    initRes := InitRes.ok false
    health := HealthBehavior.exn "probe failed" }

/-- A sample class whose constructor succeeds and whose instances
initialise successfully. -/
def egClass : ModuleClass :=
  fun config => Except.ok
    { cfg := config.getD []
      initRes := InitRes.ok true
      health := HealthBehavior.ok [("status", "healthy")] }

/-- A sample class whose constructor raises. -/
def egClassBad : ModuleClass :=
  fun _ => Except.error "constructor raised"

/-- A sample class whose instances fail their `initialize()`. -/
def egClassInitFail : ModuleClass :=
  fun config => Except.ok
    { cfg := config.getD []
      initRes := InitRes.ok false
      health := HealthBehavior.ok [] }

/-- An environment resolving only `alpha`. -/
def egEnv : Env :=
  fun module_name => if module_name = "alpha" then some egClass else none

/-- An environment where `alpha` resolves and `beta`'s constructor raises. -/
def egEnv2 : Env :=
  fun module_name =>
    if module_name = "alpha" then some egClass
    else if module_name = "beta" then some egClassBad
    else none

/-- An environment where `alpha` resolves to a class failing `initialize()`. -/
def egEnvFail : Env :=
  fun module_name => if module_name = "alpha" then some egClassInitFail else none

/-- A fresh loader. -/
def egLoader : ModuleLoader := { loaded := [], available := [] }

/-- A loader with `alpha` loaded. -/
def egLoaderA : ModuleLoader := { loaded := [("alpha", egInstance)], available := [] }

/-- A loader with a healthy `alpha` and a raising `beta` loaded. -/
def egLoaderAB : ModuleLoader :=
  { loaded := [("alpha", egInstance), ("beta", egInstanceBad)], available := [] }

/-- A heap-model loader whose registry dict lives at address 0. -/
def egHeap : HeapModel.HeapLoader :=
  { heap := [[("alpha", egInstance)]], loadedRef := 0 }

/-! ## Helper lemmas about the loader operations -/

theorem load_module_loaded (env : Env) (st : ModuleLoader) (module_name : String)
    (config : Option Config) :
    (load_module env st module_name config).2.loaded = st.loaded := by
  unfold load_module
  split
  · rfl
  · split <;> rfl

theorem init_module_loaded_of_ne (st : ModuleLoader) (module_name n : String)
    (m : ModInstance) (hne : n ≠ module_name) :
    dictLookup n (init_module st module_name m).2.loaded = dictLookup n st.loaded := by
  unfold init_module
  cases m.initRes with
  | exn msg => rfl
  | ok success =>
    cases success
    · rfl
    · simp only [if_pos]
      exact dictLookup_insert_ne module_name n (fun he => hne he.symm) m st.loaded

/-- Characterisation of one `load_all_modules` loop iteration: it adds one
boolean entry for the processed name, registers the module exactly when that
boolean is `true`, and touches no other name in `loaded_modules`. -/
theorem load_all_step_char (env : Env) (configs : List (String × Config))
    (st : ModuleLoader) (results : List (String × Bool)) (module_name : String) :
    ∃ b : Bool,
      (load_all_step env configs st results module_name).1 =
        dictInsert module_name b results ∧
      (b = true →
        (dictLookup module_name
          (load_all_step env configs st results module_name).2.loaded).isSome) ∧
      (b = false →
        dictLookup module_name
          (load_all_step env configs st results module_name).2.loaded =
          dictLookup module_name st.loaded) ∧
      (∀ n, n ≠ module_name →
        dictLookup n (load_all_step env configs st results module_name).2.loaded =
          dictLookup n st.loaded) := by
  unfold load_all_step
  cases henv : env module_name with
  | none =>
    refine ⟨false, ?_⟩
    simp [load_module, henv]
  | some cls =>
    cases hctor : cls (some ((dictLookup module_name configs).getD [])) with
    | error e =>
      refine ⟨false, ?_⟩
      simp [load_module, henv, hctor]
    | ok inst =>
      cases hinit : inst.initRes with
      | exn msg =>
        refine ⟨false, ?_⟩
        simp [load_module, henv, hctor, init_module, hinit]
      | ok success =>
        cases success with
        | false =>
          refine ⟨false, ?_⟩
          simp [load_module, henv, hctor, init_module, hinit]
        | true =>
          refine ⟨true, ?_, ?_, ?_, ?_⟩
          · simp [load_module, henv, hctor, init_module, hinit]
          · intro _
            simp [load_module, henv, hctor, init_module, hinit, dictLookup_insert_self]
          · intro h
            simp at h
          · intro n hne
            simp [load_module, henv, hctor, init_module, hinit,
              dictLookup_insert_ne module_name n (fun he => hne he.symm)]

/-- Invariant of the `load_all_modules` loop, by induction over the
remaining discovered names: processing appends one result entry per name,
makes each processed name registered exactly when its result is `true`, and
leaves every other name's result and registration untouched. -/
theorem load_all_aux_spec (env : Env) (configs : List (String × Config)) :
    ∀ (ds : List String) (st : ModuleLoader) (results : List (String × Bool)),
      ds.Nodup →
      (∀ n ∈ ds, dictLookup n st.loaded = none) →
      (∀ n ∈ ds, dictLookup n results = none) →
      ((load_all_aux env configs st results ds).1.map Prod.fst =
        results.map Prod.fst ++ ds) ∧
      (∀ n ∈ ds, ∃ b,
        dictLookup n (load_all_aux env configs st results ds).1 = some b ∧
        (dictLookup n (load_all_aux env configs st results ds).2.loaded).isSome = b) ∧
      (∀ n, n ∉ ds →
        dictLookup n (load_all_aux env configs st results ds).1 =
          dictLookup n results) ∧
      (∀ n, n ∉ ds →
        dictLookup n (load_all_aux env configs st results ds).2.loaded =
          dictLookup n st.loaded) := by
  intro ds
  induction ds with
  | nil =>
    intro st results _ _ _
    exact ⟨by simp [load_all_aux], by simp, fun n _ => rfl, fun n _ => rfl⟩
  | cons module_name rest ih =>
    intro st results hnd hfresh hres
    obtain ⟨hnotmem, hndrest⟩ := List.nodup_cons.mp hnd
    obtain ⟨b, hstep1, hbt, hbf, hframe⟩ :=
      load_all_step_char env configs st results module_name
    have haux : load_all_aux env configs st results (module_name :: rest) =
        load_all_aux env configs
          (load_all_step env configs st results module_name).2
          (load_all_step env configs st results module_name).1 rest := rfl
    have hne_of_mem : ∀ n ∈ rest, n ≠ module_name := by
      intro n hn he
      exact hnotmem (he ▸ hn)
    have hfresh2 : ∀ n ∈ rest,
        dictLookup n (load_all_step env configs st results module_name).2.loaded = none := by
      intro n hn
      rw [hframe n (hne_of_mem n hn)]
      exact hfresh n (List.mem_cons_of_mem _ hn)
    have hres2 : ∀ n ∈ rest,
        dictLookup n (load_all_step env configs st results module_name).1 = none := by
      intro n hn
      rw [hstep1, dictLookup_insert_ne module_name n (fun he => hne_of_mem n hn he.symm)]
      exact hres n (List.mem_cons_of_mem _ hn)
    obtain ⟨ih1, ih2, ih3, ih4⟩ :=
      ih (load_all_step env configs st results module_name).2
        (load_all_step env configs st results module_name).1 hndrest hfresh2 hres2
    have habs : dictLookup module_name results = none :=
      hres module_name (List.mem_cons_self _ _)
    have hstep_keys : (load_all_step env configs st results module_name).1.map Prod.fst =
        results.map Prod.fst ++ [module_name] := by
      rw [hstep1, dictInsert_of_absent module_name results habs b, List.map_append]
      rfl
    refine ⟨?_, ?_, ?_, ?_⟩
    · rw [haux, ih1, hstep_keys, List.append_assoc]
      rfl
    · intro n hn
      rcases List.mem_cons.mp hn with he | hn2
      · subst he
        refine ⟨b, ?_, ?_⟩
        · rw [haux, ih3 n hnotmem, hstep1, dictLookup_insert_self]
        · rw [haux, ih4 n hnotmem]
          cases b with
          | true => simp [hbt rfl]
          | false =>
            rw [hbf rfl, hfresh n (List.mem_cons_self _ _)]
            rfl
      · exact ih2 n hn2
    · intro n hn
      have hn1 : n ≠ module_name := fun he => hn (he ▸ List.mem_cons_self _ _)
      have hn2 : n ∉ rest := fun hm => hn (List.mem_cons_of_mem _ hm)
      rw [haux, ih3 n hn2, hstep1,
        dictLookup_insert_ne module_name n (fun he => hn1 he.symm)]
    · intro n hn
      have hn1 : n ≠ module_name := fun he => hn (he ▸ List.mem_cons_self _ _)
      have hn2 : n ∉ rest := fun hm => hn (List.mem_cons_of_mem _ hm)
      rw [haux, ih4 n hn2, hframe n hn1]

/-- Invariant of the health-aggregation loop: it appends one entry per
module, each entry being the module's own health dict or the converted
error entry when its probe raises. -/
theorem health_aux_spec :
    ∀ (mods : List (String × ModInstance))
      (acc : List (String × List (String × String))),
      (∀ n ∈ mods.map Prod.fst, dictLookup n acc = none) →
      (mods.map Prod.fst).Nodup →
      ((health_aux mods acc).map Prod.fst = acc.map Prod.fst ++ mods.map Prod.fst) ∧
      (∀ p ∈ mods, dictLookup p.1 (health_aux mods acc) =
        some (match p.2.health with
          | HealthBehavior.ok h => h
          | HealthBehavior.exn e => [("status", "error"), ("error", e)])) ∧
      (∀ n, n ∉ mods.map Prod.fst →
        dictLookup n (health_aux mods acc) = dictLookup n acc) := by
  intro mods
  induction mods with
  | nil =>
    intro acc _ _
    exact ⟨by simp [health_aux], by simp, fun n _ => rfl⟩
  | cons p rest ih =>
    obtain ⟨name, m⟩ := p
    intro acc hacc hnd
    simp only [List.map_cons, List.nodup_cons] at hnd
    obtain ⟨hnotmem, hndrest⟩ := hnd
    have hentry : ∃ entry,
        health_aux ((name, m) :: rest) acc = health_aux rest (dictInsert name entry acc) ∧
        entry = (match m.health with
          | HealthBehavior.ok h => h
          | HealthBehavior.exn e => [("status", "error"), ("error", e)]) := by
      cases hh : m.health with
      | ok h => exact ⟨h, by simp [health_aux, hh], by simp [hh]⟩
      | exn e => exact ⟨[("status", "error"), ("error", e)], by simp [health_aux, hh], by simp [hh]⟩
    obtain ⟨entry, hunf, hentry_eq⟩ := hentry
    have hne_of_mem : ∀ n ∈ rest.map Prod.fst, n ≠ name := by
      intro n hn he
      exact hnotmem (he ▸ hn)
    have hacc2 : ∀ n ∈ rest.map Prod.fst,
        dictLookup n (dictInsert name entry acc) = none := by
      intro n hn
      rw [dictLookup_insert_ne name n (fun he => hne_of_mem n hn he.symm)]
      exact hacc n (List.mem_cons_of_mem _ hn)
    obtain ⟨ih1, ih2, ih3⟩ := ih (dictInsert name entry acc) hacc2 hndrest
    have habs : dictLookup name acc = none := hacc name (List.mem_cons_self _ _)
    refine ⟨?_, ?_, ?_⟩
    · rw [hunf, ih1, dictInsert_of_absent name acc habs entry, List.map_append,
        List.append_assoc]
      rfl
    · intro q hq
      rcases List.mem_cons.mp hq with he | hq2
      · subst he
        rw [hunf, ih3 name hnotmem, dictLookup_insert_self, hentry_eq]
      · rw [hunf]
        exact ih2 q hq2
    · intro n hn
      simp only [List.map_cons, List.mem_cons, not_or] at hn
      rw [hunf, ih3 n hn.2,
        dictLookup_insert_ne name n (fun he => hn.1 he.symm)]

/-! ## Claim theorems -/

/-- C1: after `load_all_modules(configs)`, the returned result dict contains
exactly one boolean entry for each name in the discovery result, and for
each such name `n`, `get_module(n)` returns an instance iff the entry for
`n` is `true`. (Discovery yields pairwise-distinct directory names, and the
sweep starts from a loader where the discovered names are not yet loaded.) -/
theorem load_all_modules_results_spec (env : Env) (discovered : List String)
    (configs : List (String × Config)) (st : ModuleLoader)
    (hnd : discovered.Nodup)
    (hfresh : ∀ n ∈ discovered, dictLookup n st.loaded = none) :
    ((load_all_modules env discovered configs st).1.map Prod.fst = discovered) ∧
    ∀ n ∈ discovered, ∃ b,
      dictLookup n (load_all_modules env discovered configs st).1 = some b ∧
      ((get_module (load_all_modules env discovered configs st).2 n).isSome = b) := by
  obtain ⟨h1, h2, _, _⟩ :=
    load_all_aux_spec env configs discovered st [] hnd hfresh (fun n _ => rfl)
  exact ⟨h1, h2⟩

/-- C1 witness: a concrete sweep over `alpha` (loads and initialises) and
`beta` (constructor raises). -/
theorem load_all_modules_results_spec_witness :
    (["alpha", "beta"].Nodup ∧
      ∀ n ∈ ["alpha", "beta"], dictLookup n egLoader.loaded = none) ∧
    ((load_all_modules egEnv2 ["alpha", "beta"] [] egLoader).1.map Prod.fst =
      ["alpha", "beta"]) ∧
    ∀ n ∈ ["alpha", "beta"], ∃ b,
      dictLookup n (load_all_modules egEnv2 ["alpha", "beta"] [] egLoader).1 = some b ∧
      ((get_module (load_all_modules egEnv2 ["alpha", "beta"] [] egLoader).2 n).isSome = b) :=
  ⟨⟨by decide, fun n _ => rfl⟩,
    load_all_modules_results_spec egEnv2 ["alpha", "beta"] [] egLoader
      (by decide) (fun n _ => rfl)⟩

/-- C2: the `/health` endpoint produces one entry per loaded module; a
module whose `health_check` raises yields `{status: error, error: e}` while
every other module's own result is still included, and the handler as a
whole always returns a complete healthy-status response. -/
theorem health_check_isolates_faults (st : ModuleLoader)
    (hnd : (st.loaded.map Prod.fst).Nodup) :
    (health_check st).status = "healthy" ∧
    (health_check st).modules_loaded = (get_all_modules st).length ∧
    ((health_check st).modules.map Prod.fst = (get_all_modules st).map Prod.fst) ∧
    (∀ p ∈ get_all_modules st, ∀ e, p.2.health = HealthBehavior.exn e →
      dictLookup p.1 (health_check st).modules =
        some [("status", "error"), ("error", e)]) ∧
    (∀ p ∈ get_all_modules st, ∀ h, p.2.health = HealthBehavior.ok h →
      dictLookup p.1 (health_check st).modules = some h) := by
  obtain ⟨h1, h2, _⟩ := health_aux_spec st.loaded [] (fun n _ => rfl) hnd
  refine ⟨rfl, rfl, ?_, ?_, ?_⟩
  · simpa [health_check, get_all_modules] using h1
  · intro p hp e he
    have := h2 p hp
    rw [he] at this
    simpa [health_check, get_all_modules] using this
  · intro p hp h he
    have := h2 p hp
    rw [he] at this
    simpa [health_check, get_all_modules] using this

/-- C2 witness: a loader with a healthy `alpha` and a `beta` whose probe
raises — both appear, `beta` as a structured error entry. -/
theorem health_check_isolates_faults_witness :
    (egLoaderAB.loaded.map Prod.fst).Nodup ∧
    (health_check egLoaderAB).status = "healthy" ∧
    (health_check egLoaderAB).modules_loaded = (get_all_modules egLoaderAB).length ∧
    ((health_check egLoaderAB).modules.map Prod.fst =
      (get_all_modules egLoaderAB).map Prod.fst) ∧
    (∀ p ∈ get_all_modules egLoaderAB, ∀ e, p.2.health = HealthBehavior.exn e →
      dictLookup p.1 (health_check egLoaderAB).modules =
        some [("status", "error"), ("error", e)]) ∧
    (∀ p ∈ get_all_modules egLoaderAB, ∀ h, p.2.health = HealthBehavior.ok h →
      dictLookup p.1 (health_check egLoaderAB).modules = some h) :=
  ⟨by decide, health_check_isolates_faults egLoaderAB (by decide)⟩

/-- C3: when `initialize()` of the VirusTotal or the Shodan module returns,
the instance's status is Active if it returned `True` and Error if it
returned `False`; it is never still Initializing. -/
theorem init_run_sets_status :
    ∀ (m : VirustotalModule) (s : ShodanModule) (net : NetOutcome),
      ((VirustotalModule.init_run m net).2.status =
        if (VirustotalModule.init_run m net).1 then ModuleStatus.active
        else ModuleStatus.error) ∧
      (VirustotalModule.init_run m net).2.status ≠ ModuleStatus.initializing ∧
      ((ShodanModule.init_run s net).2.status =
        if (ShodanModule.init_run s net).1 then ModuleStatus.active
        else ModuleStatus.error) ∧
      (ShodanModule.init_run s net).2.status ≠ ModuleStatus.initializing := by
  intro m s net
  refine ⟨?_, ?_, ?_, ?_⟩ <;>
    simp only [VirustotalModule.init_run, ShodanModule.init_run] <;>
    split <;> first | (split <;> simp_all) | simp

/-- C5: `load_module` turns an unresolvable implementation type or a raising
constructor into a `None` result with the loader state unchanged — the
fault never escapes to the caller. -/
theorem load_module_failure_is_none (env : Env) (st : ModuleLoader)
    (module_name : String) (config : Option Config)
    (h : env module_name = none ∨
      ∃ cls e, env module_name = some cls ∧ cls config = Except.error e) :
    load_module env st module_name config = (none, st) := by
  rcases h with h | ⟨cls, e, hcls, herr⟩
  · simp [load_module, h]
  · simp [load_module, hcls, herr]

/-- C5 witness: `beta` does not resolve under `egEnv`, and `beta`'s
constructor raises under `egEnv2`; both give `None` and an unchanged
state. -/
theorem load_module_failure_is_none_witness :
    ((egEnv "beta" = none ∨
        ∃ cls e, egEnv "beta" = some cls ∧ cls none = Except.error e) ∧
      load_module egEnv egLoader "beta" none = (none, egLoader)) ∧
    ((egEnv2 "beta" = none ∨
        ∃ cls e, egEnv2 "beta" = some cls ∧ cls none = Except.error e) ∧
      load_module egEnv2 egLoader "beta" none = (none, egLoader)) :=
  ⟨⟨Or.inl rfl, load_module_failure_is_none egEnv egLoader "beta" none (Or.inl rfl)⟩,
    ⟨Or.inr ⟨egClassBad, "constructor raised", rfl, rfl⟩,
      load_module_failure_is_none egEnv2 egLoader "beta" none
        (Or.inr ⟨egClassBad, "constructor raised", rfl, rfl⟩)⟩⟩

/-- C4: a successful `reload_module(n, cfg2)` leaves `get_module(n)` holding
exactly the instance the resolved class constructed from `cfg2`; any
distinct prior instance is no longer reachable through `get_module`. -/
theorem reload_success_replaces (env : Env) (st : ModuleLoader)
    (module_name : String) (cfg2 : Config) (st2 : ModuleLoader)
    (h : reload_module env st module_name (some cfg2) = (true, st2)) :
    ∃ cls inst, env module_name = some cls ∧ cls (some cfg2) = Except.ok inst ∧
      get_module st2 module_name = some inst ∧
      ∀ old : ModInstance, old ≠ inst → get_module st2 module_name ≠ some old := by
  unfold reload_module at h
  cases henv : env module_name with
  | none => simp [load_module, henv] at h
  | some cls =>
    cases hctor : cls (some cfg2) with
    | error e => simp [load_module, henv, hctor] at h
    | ok inst =>
      simp only [load_module, henv, hctor] at h
      cases hinit : inst.initRes with
      | exn msg => simp [init_module, hinit] at h
      | ok success =>
        cases success with
        | false => simp [init_module, hinit] at h
        | true =>
          simp only [init_module, hinit, if_true] at h
          have h2 : st2 = { (if (dictLookup module_name st.loaded).isSome then
              { st with loaded := dictErase module_name st.loaded } else st) with
                available := dictInsert module_name cls
                  (if (dictLookup module_name st.loaded).isSome then
                    { st with loaded := dictErase module_name st.loaded }
                  else st).available,
                loaded := dictInsert module_name inst
                  (if (dictLookup module_name st.loaded).isSome then
                    { st with loaded := dictErase module_name st.loaded }
                  else st).loaded } := by
            have := congrArg Prod.snd h
            simpa using this.symm
          refine ⟨cls, inst, rfl, hctor, ?_, ?_⟩
          · rw [h2]
            simp [get_module, dictLookup_insert_self]
          · intro old hne hc
            rw [h2] at hc
            simp [get_module, dictLookup_insert_self] at hc
            exact hne hc.symm

/-- C4 witness: reloading `alpha` with a fresh config succeeds and `get`
returns the instance built from that config. -/
theorem reload_success_replaces_witness :
    (reload_module egEnv egLoaderA "alpha" (some [("k", ConfigVal.nat 1)]) =
      (true, (reload_module egEnv egLoaderA "alpha" (some [("k", ConfigVal.nat 1)])).2)) ∧
    ∃ cls inst, egEnv "alpha" = some cls ∧
      cls (some [("k", ConfigVal.nat 1)]) = Except.ok inst ∧
      get_module (reload_module egEnv egLoaderA "alpha"
        (some [("k", ConfigVal.nat 1)])).2 "alpha" = some inst ∧
      ∀ old : ModInstance, old ≠ inst →
        get_module (reload_module egEnv egLoaderA "alpha"
          (some [("k", ConfigVal.nat 1)])).2 "alpha" ≠ some old :=
  ⟨rfl, reload_success_replaces egEnv egLoaderA "alpha" [("k", ConfigVal.nat 1)] _ rfl⟩

/-- C6: on a name that is not currently loaded, `reload_module` returns the
same outcome and final state as `load_module` followed by
`initialize_module` — the unload of an absent name is a no-op. -/
theorem reload_absent_eq_load_then_init (env : Env) (st : ModuleLoader)
    (module_name : String) (config : Option Config)
    (h : dictLookup module_name st.loaded = none) :
    reload_module env st module_name config =
      load_then_init env st module_name config := by
  simp [reload_module, load_then_init, h]

/-- C6 witness: reloading `alpha` on a fresh loader equals load-then-init. -/
theorem reload_absent_eq_load_then_init_witness :
    dictLookup "alpha" egLoader.loaded = none ∧
    reload_module egEnv egLoader "alpha" none =
      load_then_init egEnv egLoader "alpha" none :=
  ⟨rfl, reload_absent_eq_load_then_init egEnv egLoader "alpha" none rfl⟩

namespace HeapModel

theorem readRef_get_all (s : HeapLoader) :
    HeapLoader.readRef (get_all_modules_h s).2 (get_all_modules_h s).1 =
      HeapLoader.readRef s s.loadedRef := by
  simp only [get_all_modules_h, HeapLoader.readRef]
  rw [heapGet_append_self]
  rfl

theorem readRef_mutate_stable (s : HeapLoader) (h : s.loadedRef < s.heap.length)
    (d : List (String × ModInstance)) :
    HeapLoader.readRef
        (mutateRef (get_all_modules_h s).2 (get_all_modules_h s).1 d) s.loadedRef =
      HeapLoader.readRef s s.loadedRef := by
  simp only [get_all_modules_h, mutateRef, HeapLoader.readRef]
  rw [heapGet_set_ne _ _ _ _ (Nat.ne_of_lt h), heapGet_append_left _ _ _ h]

/-- C7: `get_all_modules` returns an independent copy of the loaded dict:
the snapshot has the registry's contents, and overwriting the returned dict
with arbitrary contents changes neither `get_module` nor what a later
`get_all_modules` returns. -/
theorem get_all_modules_copy (s : HeapLoader) (h : s.loadedRef < s.heap.length)
    (d : List (String × ModInstance)) (module_name : String) :
    HeapLoader.readRef (get_all_modules_h s).2 (get_all_modules_h s).1 =
      HeapLoader.readRef s s.loadedRef ∧
    get_module_h (mutateRef (get_all_modules_h s).2 (get_all_modules_h s).1 d)
        module_name =
      get_module_h s module_name ∧
    HeapLoader.readRef
        (get_all_modules_h
          (mutateRef (get_all_modules_h s).2 (get_all_modules_h s).1 d)).2
        (get_all_modules_h
          (mutateRef (get_all_modules_h s).2 (get_all_modules_h s).1 d)).1 =
      HeapLoader.readRef s s.loadedRef := by
  refine ⟨readRef_get_all s, ?_, ?_⟩
  · show dictLookup module_name
      (HeapLoader.readRef
        (mutateRef (get_all_modules_h s).2 (get_all_modules_h s).1 d) s.loadedRef) =
      dictLookup module_name (HeapLoader.readRef s s.loadedRef)
    rw [readRef_mutate_stable s h d]
  · rw [readRef_get_all (mutateRef (get_all_modules_h s).2 (get_all_modules_h s).1 d)]
    exact readRef_mutate_stable s h d

end HeapModel

/-- C7 witness: a registry dict at address 0 survives arbitrary mutation of
the snapshot returned by `get_all_modules`. -/
theorem get_all_modules_copy_witness :
    egHeap.loadedRef < egHeap.heap.length ∧
    (HeapModel.HeapLoader.readRef (HeapModel.get_all_modules_h egHeap).2
        (HeapModel.get_all_modules_h egHeap).1 =
      HeapModel.HeapLoader.readRef egHeap egHeap.loadedRef ∧
    HeapModel.get_module_h
        (HeapModel.mutateRef (HeapModel.get_all_modules_h egHeap).2
          (HeapModel.get_all_modules_h egHeap).1 []) "alpha" =
      HeapModel.get_module_h egHeap "alpha" ∧
    HeapModel.HeapLoader.readRef
        (HeapModel.get_all_modules_h
          (HeapModel.mutateRef (HeapModel.get_all_modules_h egHeap).2
            (HeapModel.get_all_modules_h egHeap).1 [])).2
        (HeapModel.get_all_modules_h
          (HeapModel.mutateRef (HeapModel.get_all_modules_h egHeap).2
            (HeapModel.get_all_modules_h egHeap).1 [])).1 =
      HeapModel.HeapLoader.readRef egHeap egHeap.loadedRef) :=
  ⟨by decide, HeapModel.get_all_modules_copy egHeap (by decide) [] "alpha"⟩

/-- C8: `unload_module` returns `True` and makes `get_module` absent when
the name is loaded, and returns `False` leaving the whole state unchanged
when it is not. -/
theorem unload_module_spec (st : ModuleLoader) (module_name : String)
    (hnd : (st.loaded.map Prod.fst).Nodup) :
    ((dictLookup module_name st.loaded).isSome →
      (unload_module st module_name).1 = true ∧
      get_module (unload_module st module_name).2 module_name = none) ∧
    (dictLookup module_name st.loaded = none →
      unload_module st module_name = (false, st)) := by
  constructor
  · intro h
    refine ⟨by simp [unload_module, if_pos h], ?_⟩
    simp only [unload_module, if_pos h, get_module]
    exact dictLookup_erase_self module_name st.loaded hnd
  · intro h
    simp [unload_module, h]

/-- C8 witness: unloading `alpha` from a loader holding it succeeds and
empties the lookup; unloading it from a fresh loader is a `False` no-op. -/
theorem unload_module_spec_witness :
    ((egLoaderA.loaded.map Prod.fst).Nodup ∧
      (dictLookup "alpha" egLoaderA.loaded).isSome ∧
      (unload_module egLoaderA "alpha").1 = true ∧
      get_module (unload_module egLoaderA "alpha").2 "alpha" = none) ∧
    ((egLoader.loaded.map Prod.fst).Nodup ∧
      dictLookup "alpha" egLoader.loaded = none ∧
      unload_module egLoader "alpha" = (false, egLoader)) := by
  refine ⟨⟨by decide, by decide, ?_⟩, ⟨by decide, rfl, ?_⟩⟩
  · exact (unload_module_spec egLoaderA "alpha" (by decide)).1 (by decide)
  · exact (unload_module_spec egLoader "alpha" (by decide)).2 rfl

/-- C9: immediately after `BaseModule.__init__` the status is Initializing
and the instance reports not-initialized; constructed with an absent config
the config is the empty dict, so `get_config_value(key, default)` returns
the default for every key. -/
theorem base_module_new_spec :
    ∀ (config : Option Config),
      (BaseModule.new config).status = ModuleStatus.initializing ∧
      BaseModule.is_inited (BaseModule.new config) = false ∧
      (BaseModule.new none).config = [] ∧
      ∀ (key : String) (default : ConfigVal),
        BaseModule.get_config_value (BaseModule.new none) key default = default := by
  intro config
  exact ⟨rfl, rfl, rfl, fun _ _ => rfl⟩

/-- C10: reload is not atomic on failure — when the name was loaded and
`reload_module` returns `False`, the old instance has already been removed
and `get_module` is absent; nothing is restored. -/
theorem reload_failure_leaves_absent (env : Env) (st : ModuleLoader)
    (module_name : String) (config : Option Config) (st2 : ModuleLoader)
    (old : ModInstance)
    (hnd : (st.loaded.map Prod.fst).Nodup)
    (hold : dictLookup module_name st.loaded = some old)
    (h : reload_module env st module_name config = (false, st2)) :
    get_module st2 module_name = none := by
  have hsome : (dictLookup module_name st.loaded).isSome := by
    rw [hold]; rfl
  have herase : dictLookup module_name (dictErase module_name st.loaded) = none :=
    dictLookup_erase_self module_name st.loaded hnd
  unfold reload_module at h
  rw [if_pos hsome] at h
  cases henv : env module_name with
  | none =>
    simp only [load_module, henv] at h
    injection h with hb h2
    rw [← h2]
    exact herase
  | some cls =>
    cases hctor : cls config with
    | error e =>
      simp only [load_module, henv, hctor] at h
      injection h with hb h2
      rw [← h2]
      exact herase
    | ok inst =>
      simp only [load_module, henv, hctor] at h
      cases hinit : inst.initRes with
      | exn msg =>
        simp only [init_module, hinit] at h
        injection h with hb h2
        rw [← h2]
        exact herase
      | ok success =>
        cases success with
        | true => simp [init_module, hinit] at h
        | false =>
          simp only [init_module, hinit] at h
          rw [if_neg (show ¬(false = true) by decide)] at h
          injection h with hb h2
          rw [← h2]
          exact herase

/-- C10 witness: reloading a loaded `alpha` against a class whose instances
fail to initialise returns `False` and leaves `alpha` absent. -/
theorem reload_failure_leaves_absent_witness :
    ((egLoaderA.loaded.map Prod.fst).Nodup ∧
      dictLookup "alpha" egLoaderA.loaded = some egInstance ∧
      reload_module egEnvFail egLoaderA "alpha" none =
        (false, (reload_module egEnvFail egLoaderA "alpha" none).2)) ∧
    get_module (reload_module egEnvFail egLoaderA "alpha" none).2 "alpha" = none :=
  ⟨⟨by decide, rfl, rfl⟩,
    reload_failure_leaves_absent egEnvFail egLoaderA "alpha" none _ egInstance
      (by decide) rfl rfl⟩
